import Mathlib

/-!
Verification of the time-tracker web application (`app.py`, `init_db.py`).

The application stores one row per (entry_date, time_slot) in a relational
table `time_log` with a UNIQUE (entry_date, time_slot) constraint, and
exposes two HTTP handlers: `GET /` (`index`) and `POST /save_entry`
(`save_entry`).  We embed the database table as a list of rows, the SQL
statements as list operations, and each handler as a function from an
explicit failure oracle (which store operation, if any, raises) to a
result carrying the HTTP response, the connection-event trace and the
resulting table.
-/

namespace TimeTracker

/-! ## Dates and time slots -/

/-- A time-of-day value as written by the application: hour and minute.
The `time_slot TIME` column only ever receives `HH:MM` strings from the app. -/
structure Slot where
  hour : Nat
  minute : Nat
deriving DecidableEq, Repr

/-- Range constraint enforced by the SQL `TIME` type. -/
def Slot.valid (s : Slot) : Prop := s.hour < 24 ∧ s.minute < 60

instance (s : Slot) : Decidable s.valid := by unfold Slot.valid; infer_instance

/-- A calendar date (`datetime.date`): year, month, day. -/
structure Date where
  year : Nat
  month : Nat
  day : Nat
deriving DecidableEq, Repr

/-- Gregorian leap-year rule used by `datetime`. -/
def isLeap (y : Nat) : Bool := y % 4 = 0 && (y % 100 != 0 || y % 400 = 0)

/-- Number of days in a month, as in `datetime`. -/
def daysInMonth (y m : Nat) : Nat :=
  if m = 2 then (if isLeap y then 29 else 28)
  else if m = 4 || m = 6 || m = 9 || m = 11 then 30
  else 31

/-- A `datetime.date`-representable value: `MINYEAR = 1`, `MAXYEAR = 9999`. -/
def Date.valid (d : Date) : Prop :=
  1 ≤ d.year ∧ d.year ≤ 9999 ∧ 1 ≤ d.month ∧ d.month ≤ 12 ∧
    1 ≤ d.day ∧ d.day ≤ daysInMonth d.year d.month

instance (d : Date) : Decidable d.valid := by unfold Date.valid; infer_instance

/-- The decimal digit characters produced by Python's `%d`-style formatting. -/
def digitChar (n : Nat) : Char :=
  match n with
  | 0 => '0' | 1 => '1' | 2 => '2' | 3 => '3' | 4 => '4'
  | 5 => '5' | 6 => '6' | 7 => '7' | 8 => '8' | 9 => '9'
  | _ => '*'

/-- Zero-padded two-digit rendering, the Python format `%02d` for `n < 100`. -/
def pad2 (n : Nat) : List Char := [digitChar (n / 10), digitChar (n % 10)]

/-- Zero-padded four-digit rendering, the Python format `%04d` for `n < 10000`. -/
def pad4 (n : Nat) : List Char :=
  [digitChar (n / 1000), digitChar (n / 100 % 10), digitChar (n / 10 % 10),
    digitChar (n % 10)]

/-- Formatting `row[0].strftime('%H:%M')` (app.py line 86) and the
zero-padded `%02d:%02d` slot labels (app.py line 105). -/
def formatSlot (s : Slot) : String := ⟨pad2 s.hour ++ ':' :: pad2 s.minute⟩

/-- Python `date.isoformat()`: `YYYY-MM-DD` with zero padding. -/
def isoformat (d : Date) : String :=
  ⟨pad4 d.year ++ '-' :: (pad2 d.month ++ '-' :: pad2 d.day)⟩

/-- Value of a decimal digit character, `none` if not a digit. -/
def digitVal (c : Char) : Option Nat :=
  if c.isDigit then some (c.toNat - 48) else none

/-- Python `date.fromisoformat` on the `YYYY-MM-DD` format (app.py line 73):
ten characters, digits in the date positions, dashes as separators, and
the resulting numbers must form a representable `datetime.date`. -/
def parseISODate (s : String) : Option Date :=
  match s.data with
  | [c1, c2, c3, c4, '-', c5, c6, '-', c7, c8] => do
      let y1 ← digitVal c1
      let y2 ← digitVal c2
      let y3 ← digitVal c3
      let y4 ← digitVal c4
      let m1 ← digitVal c5
      let m2 ← digitVal c6
      let d1 ← digitVal c7
      let d2 ← digitVal c8
      let y := y1 * 1000 + y2 * 100 + y3 * 10 + y4
      let m := m1 * 10 + m2
      let dd := d1 * 10 + d2
      if 1 ≤ y ∧ 1 ≤ m ∧ m ≤ 12 ∧ 1 ≤ dd ∧ dd ≤ daysInMonth y m then
        some ⟨y, m, dd⟩
      else none
  | _ => none

/-- Parsing of an `HH:MM` string into a SQL `TIME` value, as performed by the
store when `save_entry` binds the `time_slot` form field into the upsert. -/
def parseSlot (s : String) : Option Slot :=
  match s.data with
  | [c1, c2, ':', c3, c4] => do
      let h1 ← digitVal c1
      let h2 ← digitVal c2
      let m1 ← digitVal c3
      let m2 ← digitVal c4
      let h := h1 * 10 + h2
      let m := m1 * 10 + m2
      if h < 24 ∧ m < 60 then some ⟨h, m⟩ else none
  | _ => none

/-- Python `current_date - timedelta(days=1)` on valid dates (app.py line 108). -/
def prevDay (d : Date) : Date :=
  if 1 < d.day then ⟨d.year, d.month, d.day - 1⟩
  else if 1 < d.month then ⟨d.year, d.month - 1, daysInMonth d.year (d.month - 1)⟩
  else ⟨d.year - 1, 12, 31⟩

/-- Python `current_date + timedelta(days=1)` on valid dates (app.py line 109). -/
def nextDay (d : Date) : Date :=
  if d.day < daysInMonth d.year d.month then ⟨d.year, d.month, d.day + 1⟩
  else if d.month < 12 then ⟨d.year, d.month + 1, 1⟩
  else ⟨d.year + 1, 1, 1⟩

/-! ## The `time_log` table -/

/-- One row of `time_log`.  The `SERIAL` surrogate key `id` is not modelled:
no statement of the application reads or returns it; rows are addressed only
through the UNIQUE key `(entry_date, time_slot)`.  The four text columns are
nullable (`Option`), though the application only ever writes strings. -/
structure Row where
  entry_date : Date
  time_slot : Slot
  activity : Option String
  category : Option String
  priority : Option String
  notes : Option String
deriving DecidableEq, Repr

/-- The UNIQUE (entry_date, time_slot) key of a row. -/
def Row.key (r : Row) : Date × Slot := (r.entry_date, r.time_slot)

/-- The table invariant enforced by `UNIQUE (entry_date, time_slot)`:
no two rows share a key. -/
def WellFormed (db : List Row) : Prop :=
  db.Pairwise (fun r1 r2 => r1.key ≠ r2.key)

instance (db : List Row) : Decidable (WellFormed db) := by
  unfold WellFormed; infer_instance

/-- All time slots stored in the table are `TIME`-representable. -/
def SlotsValid (db : List Row) : Prop := ∀ r ∈ db, r.time_slot.valid

instance (db : List Row) : Decidable (SlotsValid db) := by
  unfold SlotsValid
  exact List.decidableBAll _ db

/-- The upsert of `save_entry` (app.py lines 140-149):
`INSERT ... ON CONFLICT (entry_date, time_slot) DO UPDATE SET` all four
text columns to the excluded (submitted) values.  If a row with the key
exists it is updated in place, otherwise a fresh row is appended. -/
def upsertEntry (db : List Row) (d : Date) (s : Slot) (a c p n : String) :
    List Row :=
  if db.any (fun r => decide (r.key = (d, s))) then
    db.map (fun r =>
      if r.key = (d, s) then
        { r with activity := some a, category := some c,
                 priority := some p, notes := some n }
      else r)
  else db ++ [⟨d, s, some a, some c, some p, some n⟩]

/-- The value part of the per-day dictionary (app.py line 86). -/
structure EntryView where
  activity : Option String
  category : Option String
  priority : Option String
  notes : Option String
deriving DecidableEq, Repr

/-- The four selected columns of a row. -/
def Row.view (r : Row) : EntryView :=
  ⟨r.activity, r.category, r.priority, r.notes⟩

/-- The query `SELECT time_slot, activity, category, priority, notes FROM time_log
WHERE entry_date = %s` followed by the dict comprehension of app.py line 86:
a dictionary keyed by `row[0].strftime('%H:%M')`. -/
def listEntriesForDate (db : List Row) (d : Date) :
    List (String × EntryView) :=
  (db.filter (fun r => decide (r.entry_date = d))).map
    (fun r => (formatSlot r.time_slot, r.view))

/-- Python `dict` lookup on an insertion sequence: the latest binding of a
key wins (a dict comprehension overwrites earlier duplicates). -/
def dictGet {α : Type} (l : List (String × α)) (k : String) : Option α :=
  match l with
  | [] => none
  | kv :: rest =>
      match dictGet rest k with
      | some v => some v
      | none => if kv.1 = k then some kv.2 else none

/-! ## Dashboard aggregate -/

/-- The stored categories passing `WHERE category IS NOT NULL AND
category != ''` (app.py line 92), in row order, with duplicates. -/
def nonEmptyCategories (db : List Row) : List String :=
  (db.filterMap Row.category).filter (fun c => decide (c ≠ ""))

/-- The `COUNT(*)` of the group of category `c`. -/
def countCat (db : List Row) (c : String) : Nat :=
  (db.filter (fun r => decide (r.category = some c))).length

/-- The `ORDER BY total_hours DESC` comparison on (category, hours) pairs. -/
def hoursGE (x y : String × ℚ) : Prop := y.2 ≤ x.2

instance : DecidableRel hoursGE := fun x y => by unfold hoursGE; infer_instance

instance : IsTotal (String × ℚ) hoursGE :=
  ⟨fun x y => le_total y.2 x.2⟩

instance : IsTrans (String × ℚ) hoursGE :=
  ⟨fun _ _ _ h1 h2 => le_trans h2 h1⟩

/-- The dashboard query (app.py lines 89-95): group all rows of all dates by
category, excluding NULL and empty categories, take `COUNT(*) * 0.25` as the
hours, and order descending by hours. -/
def computeCategoryTotals (db : List Row) : List (String × ℚ) :=
  List.insertionSort hoursGE
    ((nonEmptyCategories db).dedup.map
      (fun c => (c, (countCat db c : ℚ) * 0.25)))

/-! ## Time-slot labels -/

/-- The 96 slot labels of app.py lines 102-105: zero-padded `%02d:%02d`
for `hour in range(24)`, `minute in range(0, 60, 15)`. -/
def timeSlots : List String :=
  (List.range 24).flatMap (fun hour =>
    [0, 15, 30, 45].map (fun minute => formatSlot ⟨hour, minute⟩))

/-! ## Request handling -/

/-- Date resolution of app.py lines 71-75:
`date_str = request.args.get('date', date.today().isoformat())`, then
`date.fromisoformat(date_str)` with a fallback to `date.today()` on
parse failure. -/
def resolveDate (param : Option String) (today : Date) : Date :=
  let date_str := param.getD (isoformat today)
  (parseISODate date_str).getD today

/-- The data handed to `render_template_string` by `index`
(app.py lines 112-120). -/
structure Page where
  time_slots : List String
  entries : List (String × EntryView)
  current_date : Date
  date_str : String
  dashboard_data : List (String × ℚ)
  prev_day : String
  next_day : String
  today_day : String
deriving DecidableEq, Repr

/-- The page built by `index` for a resolved date. -/
def indexPage (db : List Row) (d today : Date) : Page where
  time_slots := timeSlots
  entries := listEntriesForDate db d
  current_date := d
  date_str := isoformat d
  dashboard_data := computeCategoryTotals db
  prev_day := isoformat (prevDay d)
  next_day := isoformat (nextDay d)
  today_day := isoformat today

/-- Connection lifecycle events of a handler execution. -/
inductive Ev where
  | acquire
  | release
deriving DecidableEq, Repr

/-- An exception raised by a store operation (`cursor.execute` /
`connection.commit`) and not caught by the handler. -/
inductive StoreErr where
  | opFailed
deriving DecidableEq, Repr

/-- The HTTP responses the two handlers can produce. -/
inductive Resp where
  /-- Successful (status 200) page render of `index`. -/
  | page (p : Page)
  /-- The "Database Connection Error" page, status 500. -/
  | error500
  /-- Redirect issued by `save_entry`: `url_for('index', date=entry_date)`. -/
  | redirectTo (location : String)
  /-- Client error (400 Bad Request) raised by `request.form[key]` on a missing key. -/
  | badRequestKey (key : String)
deriving DecidableEq, Repr

/-- Which store operations fail in a given execution.  `connOk = false`
models `psycopg2.connect` raising `OperationalError`; the other flags model
the corresponding `execute`/`commit` call raising. -/
structure Oracle where
  connOk : Bool
  selectFails : Bool
  aggFails : Bool
  upsertFails : Bool
  commitFails : Bool
deriving DecidableEq, Repr

/-- How control leaves a handler: with an HTTP response, or by an uncaught
store exception propagating out. -/
inductive Outcome where
  | resp (r : Resp)
  | raised (e : StoreErr)
deriving DecidableEq, Repr

/-- Outcome of one handler execution: the response (or an exception
escaping the handler), the connection-event trace, and the table contents
after the request. -/
structure HandlerResult where
  response : Outcome
  events : List Ev
  db2 : List Row
deriving DecidableEq, Repr

/-- The `GET /` handler (app.py lines 65-120).  `param` is the `date` query
parameter.  The handler has no `try/finally`: when a store operation raises,
control leaves the handler without running `conn.close()` (line 99). -/
def index (db : List Row) (o : Oracle) (param : Option String)
    (today : Date) : HandlerResult :=
  let current_date := resolveDate param today
  if o.connOk then
    if o.selectFails then ⟨.raised .opFailed, [.acquire], db⟩
    else if o.aggFails then ⟨.raised .opFailed, [.acquire], db⟩
    else ⟨.resp (.page (indexPage db current_date today)),
          [.acquire, .release], db⟩
  else ⟨.resp .error500, [], db⟩

/-- The six required form keys, in the order app.py lines 126-131 reads
them. -/
def requiredKeys : List String :=
  ["entry_date", "time_slot", "activity", "category", "priority", "notes"]

/-- Flask `request.form[k]`: first value bound to `k`, if any. -/
def formVal (form : List (String × String)) (k : String) : Option String :=
  (form.find? (fun kv => decide (kv.1 = k))).map Prod.snd

/-- The six field reads of app.py lines 126-131: `request.form[k]` raises
`BadRequestKeyError` (a 400) on the first missing key. -/
def readSaveForm (form : List (String × String)) :
    Except String (String × String × String × String × String × String) :=
  match formVal form "entry_date" with
  | none => .error "entry_date"
  | some ed =>
  match formVal form "time_slot" with
  | none => .error "time_slot"
  | some ts =>
  match formVal form "activity" with
  | none => .error "activity"
  | some a =>
  match formVal form "category" with
  | none => .error "category"
  | some c =>
  match formVal form "priority" with
  | none => .error "priority"
  | some p =>
  match formVal form "notes" with
  | none => .error "notes"
  | some n => .ok (ed, ts, a, c, p, n)

/-- The `POST /save_entry` handler (app.py lines 123-155).  Form fields are
read first; then a connection is acquired and the upsert executed.  The
store parses `entry_date`/`time_slot`; a malformed value makes the execute
raise a store error.  The transaction takes effect only at `conn.commit()`.
As in `index`, no `try/finally` protects `conn.close()` (line 153). -/
def save_entry (form : List (String × String)) (db : List Row)
    (o : Oracle) : HandlerResult :=
  match readSaveForm form with
  | .error k => ⟨.resp (.badRequestKey k), [], db⟩
  | .ok (ed, ts, a, c, p, n) =>
    if o.connOk then
      match parseISODate ed, parseSlot ts with
      | some d, some s =>
        if o.upsertFails then ⟨.raised .opFailed, [.acquire], db⟩
        else if o.commitFails then ⟨.raised .opFailed, [.acquire], db⟩
        else ⟨.resp (.redirectTo ("/?date=" ++ ed)), [.acquire, .release],
              upsertEntry db d s a c p n⟩
      | _, _ => ⟨.raised .opFailed, [.acquire], db⟩
    else ⟨.resp .error500, [], db⟩

/-! ## Database initialization -/

/-- Observable outcome of `initialize_database` (app.py lines 30-62, and the
behaviourally identical standalone `init_db.py`). -/
structure InitResult where
  /-- Whether an exception escaped to the caller. -/
  raised : Bool
  /-- Whether `conn.close()` ran for an acquired connection. -/
  closed : Bool
deriving DecidableEq, Repr

/-- Store state seen by initialization: whether `time_log` exists. -/
structure DbState where
  tableExists : Bool
deriving DecidableEq, Repr

/-- Failure oracle for initialization: `connOk = false` models
`psycopg2.connect` raising `OperationalError` (caught inside
`get_db_connection`, which then returns `None`); `createFails` models
`cursor.execute`/`conn.commit` raising during schema creation. -/
structure InitOracle where
  connOk : Bool
  createFails : Bool
deriving DecidableEq, Repr

/-- The statement `CREATE TABLE IF NOT EXISTS time_log (...)` followed by `commit`: it
succeeds whether or not the table already exists, and raises only when the
oracle says the store errors. -/
def createTableIfNotExists (_st : DbState) (o : InitOracle) :
    Except StoreErr DbState :=
  if o.createFails then .error .opFailed else .ok ⟨true⟩

/-- The function `initialize_database()`: on connection failure, log and return without
touching the schema; otherwise run the guarded `CREATE TABLE IF NOT EXISTS`
with `except Exception` catching any store error and `finally` closing the
connection. -/
def initialize_database (st : DbState) (o : InitOracle) :
    DbState × InitResult :=
  if o.connOk then
    match createTableIfNotExists st o with
    | .ok st2 => (st2, ⟨false, true⟩)
    | .error _ => (st, ⟨false, true⟩)
  else (st, ⟨false, false⟩)

/-! ## Character and formatting lemmas -/

theorem digitVal_digitChar {n : Nat} (h : n < 10) :
    digitVal (digitChar n) = some n := by
  have hall : ∀ m : Fin 10, digitVal (digitChar m.val) = some m.val := by
    decide
  exact hall ⟨n, h⟩

theorem digitChar_inj {a b : Nat} (ha : a < 10) (hb : b < 10)
    (h : digitChar a = digitChar b) : a = b := by
  have hall : ∀ x y : Fin 10, digitChar x.val = digitChar y.val → x = y := by
    decide
  exact congrArg Fin.val (hall ⟨a, ha⟩ ⟨b, hb⟩ h)

theorem formatSlot_inj {s1 s2 : Slot} (h1 : s1.valid) (h2 : s2.valid)
    (h : formatSlot s1 = formatSlot s2) : s1 = s2 := by
  obtain ⟨a, b⟩ := s1
  obtain ⟨c, d⟩ := s2
  simp only [Slot.valid] at h1 h2
  obtain ⟨ha, hb⟩ := h1
  obtain ⟨hc, hd⟩ := h2
  simp only [formatSlot, pad2] at h
  injection h with h
  simp only [List.cons_append, List.nil_append, List.cons.injEq,
    and_true, true_and] at h
  obtain ⟨e1, e2, e3, e4⟩ := h
  have q1 := digitChar_inj (by omega) (by omega) e1
  have q2 := digitChar_inj (by omega) (by omega) e2
  have q3 := digitChar_inj (by omega) (by omega) e3
  have q4 := digitChar_inj (by omega) (by omega) e4
  have hac : a = c := by omega
  have hbd : b = d := by omega
  rw [hac, hbd]

theorem daysInMonth_le (y m : Nat) : daysInMonth y m ≤ 31 := by
  simp only [daysInMonth]
  split
  · split <;> omega
  · split <;> omega

theorem daysInMonth_pos (y m : Nat) : 1 ≤ daysInMonth y m := by
  simp only [daysInMonth]
  split
  · split <;> omega
  · split <;> omega

theorem parseISODate_isoformat {d : Date} (h : d.valid) :
    parseISODate (isoformat d) = some d := by
  obtain ⟨y, m, dd⟩ := d
  simp only [Date.valid] at h
  obtain ⟨hy1, hy2, hm1, hm2, hd1, hd2⟩ := h
  have h31 := daysInMonth_le y m
  have e1 : digitVal (digitChar (y / 1000)) = some (y / 1000) :=
    digitVal_digitChar (by omega)
  have e2 : digitVal (digitChar (y / 100 % 10)) = some (y / 100 % 10) :=
    digitVal_digitChar (by omega)
  have e3 : digitVal (digitChar (y / 10 % 10)) = some (y / 10 % 10) :=
    digitVal_digitChar (by omega)
  have e4 : digitVal (digitChar (y % 10)) = some (y % 10) :=
    digitVal_digitChar (by omega)
  have e5 : digitVal (digitChar (m / 10)) = some (m / 10) :=
    digitVal_digitChar (by omega)
  have e6 : digitVal (digitChar (m % 10)) = some (m % 10) :=
    digitVal_digitChar (by omega)
  have e7 : digitVal (digitChar (dd / 10)) = some (dd / 10) :=
    digitVal_digitChar (by omega)
  have e8 : digitVal (digitChar (dd % 10)) = some (dd % 10) :=
    digitVal_digitChar (by omega)
  have hy : y / 1000 * 1000 + y / 100 % 10 * 100 + y / 10 % 10 * 10 + y % 10
      = y := by omega
  have hm : m / 10 * 10 + m % 10 = m := by omega
  have hdd : dd / 10 * 10 + dd % 10 = dd := by omega
  simp only [parseISODate, isoformat, pad4, pad2, List.cons_append,
    List.nil_append, e1, e2, e3, e4, e5, e6, e7, e8, Option.bind_eq_bind,
    Option.some_bind, hy, hm, hdd]
  rw [if_pos]
  exact ⟨hy1, hm1, hm2, hd1, hd2⟩

/-! ## Upsert lemmas -/

/-- The rows of `db` carrying the key `k` (what the UNIQUE constraint
counts). -/
def rowsFor (db : List Row) (k : Date × Slot) : List Row :=
  db.filter (fun r => decide (r.key = k))

/-- The `DO UPDATE SET` branch applied to one row. -/
def overwriteRow (d : Date) (s : Slot) (a c p n : String) (r : Row) : Row :=
  if r.key = (d, s) then
    { r with activity := some a, category := some c,
             priority := some p, notes := some n }
  else r

theorem overwriteRow_key (d : Date) (s : Slot) (a c p n : String) (r : Row) :
    (overwriteRow d s a c p n r).key = r.key := by
  unfold overwriteRow
  split <;> rfl

theorem upsertEntry_eq (db : List Row) (d : Date) (s : Slot)
    (a c p n : String) :
    upsertEntry db d s a c p n =
      if db.any (fun r => decide (r.key = (d, s))) then
        db.map (overwriteRow d s a c p n)
      else db ++ [⟨d, s, some a, some c, some p, some n⟩] := rfl

theorem exists_key_iff_any (db : List Row) (k : Date × Slot) :
    (∃ r ∈ db, r.key = k) ↔ db.any (fun r => decide (r.key = k)) = true := by
  simp [List.any_eq_true]

theorem rowsFor_eq_nil_iff (db : List Row) (k : Date × Slot) :
    rowsFor db k = [] ↔ ∀ r ∈ db, r.key ≠ k := by
  simp [rowsFor, List.filter_eq_nil_iff]

/-- Under the UNIQUE constraint, a key selects zero or one rows. -/
theorem rowsFor_of_wellFormed {db : List Row} (hwf : WellFormed db)
    (k : Date × Slot) :
    rowsFor db k = [] ∨
      ∃ r0, r0 ∈ db ∧ r0.key = k ∧ rowsFor db k = [r0] := by
  induction db with
  | nil => exact Or.inl rfl
  | cons r db ih =>
    obtain ⟨hr, hdb⟩ := List.pairwise_cons.mp hwf
    by_cases hk : r.key = k
    · right
      refine ⟨r, List.mem_cons_self r db, hk, ?_⟩
      have hnil : rowsFor db k = [] := by
        rw [rowsFor_eq_nil_iff]
        intro r2 hr2
        rw [← hk]
        intro he
        exact hr r2 hr2 he.symm
      simp [rowsFor, hk] at hnil ⊢
      simpa [rowsFor] using hnil
    · have : rowsFor (r :: db) k = rowsFor db k := by
        simp [rowsFor, hk]
      rw [this]
      rcases ih hdb with h | ⟨r0, hm, hk0, he⟩
      · exact Or.inl h
      · exact Or.inr ⟨r0, List.mem_cons_of_mem r hm, hk0, he⟩

/-- Upsert preserves the UNIQUE (entry_date, time_slot) invariant. -/
theorem wellFormed_upsertEntry {db : List Row} (hwf : WellFormed db)
    (d : Date) (s : Slot) (a c p n : String) :
    WellFormed (upsertEntry db d s a c p n) := by
  rw [upsertEntry_eq]
  split
  · rw [WellFormed, List.pairwise_map]
    refine hwf.imp_of_mem ?_
    intro r1 r2 _ _ hne
    rw [overwriteRow_key, overwriteRow_key]
    exact hne
  · rename_i hany
    rw [WellFormed, List.pairwise_append]
    refine ⟨hwf, List.pairwise_singleton _ _, ?_⟩
    intro r1 hr1 r2 hr2
    rw [List.mem_singleton] at hr2
    subst hr2
    intro hkey
    rw [Bool.not_eq_true] at hany
    have := (exists_key_iff_any db (d, s)).mp ⟨r1, hr1, hkey⟩
    rw [hany] at this
    exact Bool.false_ne_true this

/-- After an upsert, the key holds exactly one row, carrying the submitted
values. -/
theorem rowsFor_upsertEntry {db : List Row} (hwf : WellFormed db)
    (d : Date) (s : Slot) (a c p n : String) :
    rowsFor (upsertEntry db d s a c p n) (d, s) =
      [⟨d, s, some a, some c, some p, some n⟩] := by
  rw [upsertEntry_eq]
  split
  · rename_i hany
    have hmapfilter : rowsFor (db.map (overwriteRow d s a c p n)) (d, s) =
        (rowsFor db (d, s)).map (overwriteRow d s a c p n) := by
      unfold rowsFor
      rw [List.filter_map]
      congr 1
      apply List.filter_congr
      intro r _
      simp [Function.comp, overwriteRow_key]
    rw [hmapfilter]
    rcases rowsFor_of_wellFormed hwf (d, s) with hnil | ⟨r0, hm, hk0, he⟩
    · rw [rowsFor_eq_nil_iff] at hnil
      obtain ⟨r1, hr1, hkey⟩ := (exists_key_iff_any db (d, s)).mpr hany
      exact absurd hkey (hnil r1 hr1)
    · rw [he]
      have : overwriteRow d s a c p n r0 =
          ⟨d, s, some a, some c, some p, some n⟩ := by
        have hd : r0.entry_date = d := congrArg Prod.fst hk0
        have hs : r0.time_slot = s := congrArg Prod.snd hk0
        unfold overwriteRow
        rw [if_pos hk0]
        cases r0
        simp_all [Row.key]
      rw [List.map_singleton, this]
  · rename_i hany
    unfold rowsFor
    rw [List.filter_append]
    have h1 : db.filter (fun r => decide (r.key = (d, s))) = [] := by
      rw [List.filter_eq_nil_iff]
      intro r hr hdec
      rw [decide_eq_true_eq] at hdec
      rw [Bool.not_eq_true] at hany
      have := (exists_key_iff_any db (d, s)).mp ⟨r, hr, hdec⟩
      rw [hany] at this
      exact Bool.false_ne_true this
    rw [h1]
    simp [Row.key]

/-- Upsert keeps every stored slot `TIME`-representable when the submitted
slot is. -/
theorem slotsValid_upsertEntry {db : List Row} (hv : SlotsValid db)
    {s : Slot} (hs : s.valid) (d : Date) (a c p n : String) :
    SlotsValid (upsertEntry db d s a c p n) := by
  rw [upsertEntry_eq]
  split
  · intro r hr
    rw [List.mem_map] at hr
    obtain ⟨r0, hr0, he⟩ := hr
    subst he
    unfold overwriteRow
    split
    · exact hv r0 hr0
    · exact hv r0 hr0
  · intro r hr
    rw [List.mem_append] at hr
    rcases hr with hr | hr
    · exact hv r hr
    · rw [List.mem_singleton] at hr
      subst hr
      exact hs

/-! ## Dictionary lemmas -/

theorem dictGet_eq_some_of_nodup {α : Type} :
    ∀ (l : List (String × α)), (l.map Prod.fst).Nodup →
      ∀ (k : String) (v : α), (dictGet l k = some v ↔ (k, v) ∈ l) := by
  intro l
  induction l with
  | nil =>
    intro _ k v
    simp [dictGet]
  | cons kv rest ih =>
    intro hnd k v
    rw [List.map_cons, List.nodup_cons] at hnd
    obtain ⟨hk1, hnd⟩ := hnd
    cases hrest : dictGet rest k with
    | some v2 =>
      have hD : dictGet (kv :: rest) k = some v2 := by
        simp [dictGet, hrest]
      rw [hD]
      have hv2 : (k, v2) ∈ rest := (ih hnd k v2).mp hrest
      have hkne : kv.1 ≠ k := by
        intro he
        exact hk1 (by rw [he]; exact List.mem_map_of_mem Prod.fst hv2)
      constructor
      · intro he
        rw [Option.some_inj] at he
        subst he
        exact List.mem_cons_of_mem kv hv2
      · intro hm
        rcases List.mem_cons.mp hm with he | hm2
        · exact absurd (congrArg Prod.fst he.symm) hkne
        · have h5 := (ih hnd k v).mpr hm2
          rw [hrest] at h5
          exact h5
    | none =>
      have hD : dictGet (kv :: rest) k =
          if kv.1 = k then some kv.2 else none := by
        simp [dictGet, hrest]
      rw [hD]
      have hnotin : (k, v) ∉ rest := by
        intro hm
        have h5 := (ih hnd k v).mpr hm
        rw [h5] at hrest
        exact Option.noConfusion hrest
      by_cases hkv : kv.1 = k
      · subst hkv
        rw [if_pos rfl]
        constructor
        · intro he
          rw [Option.some_inj] at he
          subst he
          exact List.mem_cons_self kv rest
        · intro hm
          rcases List.mem_cons.mp hm with he | hm2
          · exact congrArg some (congrArg Prod.snd he).symm
          · exact absurd hm2 hnotin
      · rw [if_neg hkv]
        constructor
        · intro he
          exact Option.noConfusion he
        · intro hm
          rcases List.mem_cons.mp hm with he | hm2
          · exact absurd (congrArg Prod.fst he.symm) hkv
          · exact absurd hm2 hnotin

/-- Under the table invariant and `TIME` range constraint, the per-day
dictionary has no duplicate keys. -/
theorem listEntries_keys_nodup {db : List Row} (hwf : WellFormed db)
    (hv : SlotsValid db) (d : Date) :
    ((listEntriesForDate db d).map Prod.fst).Nodup := by
  unfold listEntriesForDate
  have hpw : (db.filter (fun r => decide (r.entry_date = d))).Pairwise
      (fun r1 r2 => r1.key ≠ r2.key) :=
    hwf.sublist (List.filter_sublist db)
  have h2 : (db.filter (fun r => decide (r.entry_date = d))).Pairwise
      (fun r1 r2 => formatSlot r1.time_slot ≠ formatSlot r2.time_slot) := by
    refine hpw.imp_of_mem ?_
    intro r1 r2 h1m h2m hne hfmt
    have hd1 : r1.entry_date = d := by
      have := List.of_mem_filter h1m
      rwa [decide_eq_true_eq] at this
    have hd2 : r2.entry_date = d := by
      have := List.of_mem_filter h2m
      rwa [decide_eq_true_eq] at this
    have hv1 := hv r1 (List.mem_of_mem_filter h1m)
    have hv2 := hv r2 (List.mem_of_mem_filter h2m)
    have hslot := formatSlot_inj hv1 hv2 hfmt
    apply hne
    rw [Row.key, Row.key, hd1, hd2, hslot]
  have h3 : ((db.filter (fun r => decide (r.entry_date = d))).map
      (fun r => (formatSlot r.time_slot, r.view))).Pairwise
      (fun x y => x.1 ≠ y.1) :=
    h2.map _ (fun _ _ h => h)
  exact h3.map Prod.fst (fun _ _ h => h)

theorem mem_listEntriesForDate {db : List Row} {d : Date} {k : String}
    {v : EntryView} :
    (k, v) ∈ listEntriesForDate db d ↔
      ∃ r ∈ db, r.entry_date = d ∧ k = formatSlot r.time_slot ∧
        v = r.view := by
  unfold listEntriesForDate
  simp only [List.mem_map, List.mem_filter, decide_eq_true_eq,
    Prod.mk.injEq]
  constructor
  · rintro ⟨r, ⟨hm, hd⟩, hk, hv⟩
    exact ⟨r, hm, hd, hk.symm, hv.symm⟩
  · rintro ⟨r, hm, hd, hk, hv⟩
    exact ⟨r, ⟨hm, hd⟩, hk.symm, hv.symm⟩

/-! ## Claim theorems: the entry repository -/

/-- C1: `upsertEntry` keeps at most one row per (entry_date, time_slot):
starting from a table satisfying the UNIQUE constraint, the upsert preserves
the constraint; it appends a fresh row when no row has the key; when a row
has the key it rewrites the table in place, overwriting all four text fields
of that row; after the upsert the key holds exactly the submitted values
(in particular a submitted empty string overwrites — clears — the stored
value), and two upserts with the same key leave exactly one row for the
key, holding the second call's values. -/
theorem upsertEntry_spec (db : List Row) (d : Date) (s : Slot)
    (a c p n a2 c2 p2 n2 : String) (hwf : WellFormed db) :
    WellFormed (upsertEntry db d s a c p n) ∧
    ((∀ r ∈ db, r.key ≠ (d, s)) →
      upsertEntry db d s a c p n =
        db ++ [⟨d, s, some a, some c, some p, some n⟩]) ∧
    ((∃ r ∈ db, r.key = (d, s)) →
      upsertEntry db d s a c p n = db.map (overwriteRow d s a c p n)) ∧
    rowsFor (upsertEntry db d s a c p n) (d, s) =
      [⟨d, s, some a, some c, some p, some n⟩] ∧
    rowsFor (upsertEntry (upsertEntry db d s a c p n) d s a2 c2 p2 n2)
        (d, s) = [⟨d, s, some a2, some c2, some p2, some n2⟩] := by
  refine ⟨wellFormed_upsertEntry hwf d s a c p n, ?_, ?_,
    rowsFor_upsertEntry hwf d s a c p n,
    rowsFor_upsertEntry (wellFormed_upsertEntry hwf d s a c p n)
      d s a2 c2 p2 n2⟩
  · intro hno
    rw [upsertEntry_eq, if_neg]
    intro hany
    obtain ⟨r, hr, hk⟩ := (exists_key_iff_any db (d, s)).mpr hany
    exact hno r hr hk
  · intro hex
    rw [upsertEntry_eq, if_pos ((exists_key_iff_any db (d, s)).mp hex)]

theorem upsertEntry_spec_witness :
    WellFormed ([] : List Row) ∧
    rowsFor (upsertEntry (upsertEntry [] ⟨2024, 5, 6⟩ ⟨9, 15⟩
          "Write report" "Deep Work" "Finish draft" "focused")
        ⟨2024, 5, 6⟩ ⟨9, 15⟩ "" "" "" "") (⟨2024, 5, 6⟩, ⟨9, 15⟩) =
      [⟨⟨2024, 5, 6⟩, ⟨9, 15⟩, some "", some "", some "", some ""⟩] :=
  ⟨by decide,
    (upsertEntry_spec [] ⟨2024, 5, 6⟩ ⟨9, 15⟩ "Write report" "Deep Work"
      "Finish draft" "focused" "" "" "" "" (by decide)).2.2.2.2⟩

/-- C2: after `upsertEntry(D, S, a, c, p, n)`, the per-day mapping of
`listEntriesForDate(D)` maps the formatted slot `S` to exactly the four
submitted values, unchanged. -/
theorem upsertEntry_listEntries_roundtrip (db : List Row) (d : Date)
    (s : Slot) (a c p n : String) (hwf : WellFormed db)
    (hv : SlotsValid db) (hs : s.valid) :
    dictGet (listEntriesForDate (upsertEntry db d s a c p n) d)
        (formatSlot s) = some ⟨some a, some c, some p, some n⟩ := by
  have hwf2 := wellFormed_upsertEntry hwf d s a c p n
  have hv2 := slotsValid_upsertEntry hv hs d a c p n
  rw [dictGet_eq_some_of_nodup _ (listEntries_keys_nodup hwf2 hv2 d)]
  rw [mem_listEntriesForDate]
  have hrows := rowsFor_upsertEntry hwf d s a c p n
  have hmem : (⟨d, s, some a, some c, some p, some n⟩ : Row) ∈
      upsertEntry db d s a c p n := by
    have h1 : (⟨d, s, some a, some c, some p, some n⟩ : Row) ∈
        rowsFor (upsertEntry db d s a c p n) (d, s) := by
      rw [hrows]
      exact List.mem_singleton_self _
    exact List.mem_of_mem_filter h1
  exact ⟨_, hmem, rfl, rfl, rfl⟩

theorem upsertEntry_listEntries_roundtrip_witness :
    WellFormed ([] : List Row) ∧ SlotsValid ([] : List Row) ∧
    Slot.valid ⟨9, 15⟩ ∧
    dictGet (listEntriesForDate (upsertEntry [] ⟨2024, 5, 6⟩ ⟨9, 15⟩
          "Write report" "Deep Work" "Finish draft" "focused") ⟨2024, 5, 6⟩)
        (formatSlot ⟨9, 15⟩) =
      some ⟨some "Write report", some "Deep Work", some "Finish draft",
        some "focused"⟩ :=
  ⟨by decide, by decide, by decide,
    upsertEntry_listEntries_roundtrip [] ⟨2024, 5, 6⟩ ⟨9, 15⟩ "Write report"
      "Deep Work" "Finish draft" "focused" (by decide) (by decide)
      (by decide)⟩

/-- C3: the per-day mapping of `listEntriesForDate(D)` binds a key `k` to a
value `v` exactly when the table holds a row whose date is `D`, whose slot
formats (zero-padded `HH:MM`) to `k`, and whose four selected fields
(activity, category, priority, notes — all present in the `EntryView`
record) form `v`; entries of other dates never appear. -/
theorem listEntriesForDate_spec (db : List Row) (d : Date)
    (hwf : WellFormed db) (hv : SlotsValid db) (k : String)
    (v : EntryView) :
    dictGet (listEntriesForDate db d) k = some v ↔
      ∃ r ∈ db, r.entry_date = d ∧ k = formatSlot r.time_slot ∧
        v = r.view := by
  rw [dictGet_eq_some_of_nodup _ (listEntries_keys_nodup hwf hv d)]
  exact mem_listEntriesForDate

theorem listEntriesForDate_spec_witness :
    WellFormed [(⟨⟨2024, 5, 6⟩, ⟨9, 15⟩, some "a", some "b", some "c",
        some "d"⟩ : Row)] ∧
    SlotsValid [(⟨⟨2024, 5, 6⟩, ⟨9, 15⟩, some "a", some "b", some "c",
        some "d"⟩ : Row)] ∧
    (dictGet (listEntriesForDate [(⟨⟨2024, 5, 6⟩, ⟨9, 15⟩, some "a",
          some "b", some "c", some "d"⟩ : Row)] ⟨2024, 5, 6⟩) "09:15" =
        some ⟨some "a", some "b", some "c", some "d"⟩ ↔
      ∃ r ∈ [(⟨⟨2024, 5, 6⟩, ⟨9, 15⟩, some "a", some "b", some "c",
          some "d"⟩ : Row)], r.entry_date = ⟨2024, 5, 6⟩ ∧
        "09:15" = formatSlot r.time_slot ∧
        (⟨some "a", some "b", some "c", some "d"⟩ : EntryView) = r.view) :=
  ⟨by decide, by decide,
    listEntriesForDate_spec _ ⟨2024, 5, 6⟩ (by decide) (by decide) "09:15"
      ⟨some "a", some "b", some "c", some "d"⟩⟩

/-! ## Claim theorems: slot labels -/

/-- C5: the generated slot labels are exactly the 96 strings
`"00:00", "00:15", ..., "23:45"` — zero-padded `HH:MM` for hour 0..23 and
minute in \x7b0, 15, 30, 45\x7d — in strictly ascending order with no
duplicates.  `timeSlots` takes no table argument, so the labels are
independent of what entries are stored. -/
theorem timeSlots_spec :
    timeSlots =
      ["00:00", "00:15", "00:30", "00:45", "01:00", "01:15", "01:30",
        "01:45", "02:00", "02:15", "02:30", "02:45", "03:00", "03:15",
        "03:30", "03:45", "04:00", "04:15", "04:30", "04:45", "05:00",
        "05:15", "05:30", "05:45", "06:00", "06:15", "06:30", "06:45",
        "07:00", "07:15", "07:30", "07:45", "08:00", "08:15", "08:30",
        "08:45", "09:00", "09:15", "09:30", "09:45", "10:00", "10:15",
        "10:30", "10:45", "11:00", "11:15", "11:30", "11:45", "12:00",
        "12:15", "12:30", "12:45", "13:00", "13:15", "13:30", "13:45",
        "14:00", "14:15", "14:30", "14:45", "15:00", "15:15", "15:30",
        "15:45", "16:00", "16:15", "16:30", "16:45", "17:00", "17:15",
        "17:30", "17:45", "18:00", "18:15", "18:30", "18:45", "19:00",
        "19:15", "19:30", "19:45", "20:00", "20:15", "20:30", "20:45",
        "21:00", "21:15", "21:30", "21:45", "22:00", "22:15", "22:30",
        "22:45", "23:00", "23:15", "23:30", "23:45"] ∧
    timeSlots.length = 96 ∧
    timeSlots.Nodup ∧
    List.Sorted (fun a b : String => a < b) timeSlots := by
  refine ⟨by decide, by decide, by decide, ?_⟩
  have h : List.Pairwise (fun a b : String => a.toList < b.toList)
      timeSlots := by decide
  exact h.imp (fun hab => String.lt_iff_toList_lt.mpr hab)

/-! ## Claim theorems: dashboard -/

theorem mem_nonEmptyCategories_dedup {db : List Row} {c : String} :
    c ∈ (nonEmptyCategories db).dedup ↔
      (∃ r ∈ db, r.category = some c) ∧ c ≠ "" := by
  rw [List.mem_dedup]
  unfold nonEmptyCategories
  rw [List.mem_filter, List.mem_filterMap]
  simp only [decide_eq_true_eq]

/-- C4: `computeCategoryTotals` yields one (category, hours) pair per
distinct stored category over all rows of all dates, excluding NULL and
empty-string categories; the hours of a category are its row count times
0.25 (so a category with exactly 4 rows yields 1.00 hour); keys are not
repeated; and the pairs are ordered descending by hours. -/
theorem computeCategoryTotals_spec (db : List Row) :
    (∀ c h, (c, h) ∈ computeCategoryTotals db ↔
      ((∃ r ∈ db, r.category = some c) ∧ c ≠ "" ∧
        h = (countCat db c : ℚ) * 0.25)) ∧
    ((computeCategoryTotals db).map Prod.fst).Nodup ∧
    List.Sorted hoursGE (computeCategoryTotals db) ∧
    (∀ c h, countCat db c = 4 → (c, h) ∈ computeCategoryTotals db →
      h = 1) := by
  have hmem : ∀ c h, (c, h) ∈ computeCategoryTotals db ↔
      ((∃ r ∈ db, r.category = some c) ∧ c ≠ "" ∧
        h = (countCat db c : ℚ) * 0.25) := by
    intro c h
    unfold computeCategoryTotals
    rw [List.mem_insertionSort, List.mem_map]
    constructor
    · rintro ⟨c2, hc2, he⟩
      have h1 : c2 = c := congrArg Prod.fst he
      have h2 : (countCat db c2 : ℚ) * 0.25 = h := congrArg Prod.snd he
      subst h1
      obtain ⟨hex, hne⟩ := mem_nonEmptyCategories_dedup.mp hc2
      exact ⟨hex, hne, h2.symm⟩
    · rintro ⟨hex, hne, he⟩
      subst he
      exact ⟨c, mem_nonEmptyCategories_dedup.mpr ⟨hex, hne⟩, rfl⟩
  refine ⟨hmem, ?_, ?_, ?_⟩
  · have hperm : List.Perm (computeCategoryTotals db)
        ((nonEmptyCategories db).dedup.map
          (fun c => (c, (countCat db c : ℚ) * 0.25))) :=
      List.perm_insertionSort _ _
    have hkeys : ((nonEmptyCategories db).dedup.map
        (fun c => (c, (countCat db c : ℚ) * 0.25))).map Prod.fst =
        (nonEmptyCategories db).dedup := by
      rw [List.map_map]
      exact List.map_id _
    rw [(hperm.map Prod.fst).nodup_iff, hkeys]
    exact List.nodup_dedup _
  · unfold computeCategoryTotals
    exact List.sorted_insertionSort hoursGE _
  · intro c h h4 hm
    have := ((hmem c h).mp hm).2.2
    rw [h4] at this
    rw [this]
    norm_num

theorem computeCategoryTotals_spec_witness :
    countCat
        [(⟨⟨2024, 5, 6⟩, ⟨9, 0⟩, some "a", some "Deep Work", none, none⟩ :
           Row),
         ⟨⟨2024, 5, 6⟩, ⟨9, 15⟩, some "a", some "Deep Work", none, none⟩,
         ⟨⟨2024, 5, 6⟩, ⟨9, 30⟩, some "a", some "Deep Work", none, none⟩,
         ⟨⟨2024, 5, 7⟩, ⟨9, 45⟩, some "a", some "Deep Work", none, none⟩]
        "Deep Work" = 4 ∧
    ("Deep Work", (1 : ℚ)) ∈ computeCategoryTotals
        [(⟨⟨2024, 5, 6⟩, ⟨9, 0⟩, some "a", some "Deep Work", none, none⟩ :
           Row),
         ⟨⟨2024, 5, 6⟩, ⟨9, 15⟩, some "a", some "Deep Work", none, none⟩,
         ⟨⟨2024, 5, 6⟩, ⟨9, 30⟩, some "a", some "Deep Work", none, none⟩,
         ⟨⟨2024, 5, 7⟩, ⟨9, 45⟩, some "a", some "Deep Work", none, none⟩] :=
  ⟨by decide,
    ((computeCategoryTotals_spec _).1 "Deep Work" 1).mpr
      ⟨⟨_, List.mem_cons_self _ _, rfl⟩, by decide, by
        rw [show countCat
          [(⟨⟨2024, 5, 6⟩, ⟨9, 0⟩, some "a", some "Deep Work", none,
             none⟩ : Row),
           ⟨⟨2024, 5, 6⟩, ⟨9, 15⟩, some "a", some "Deep Work", none, none⟩,
           ⟨⟨2024, 5, 6⟩, ⟨9, 30⟩, some "a", some "Deep Work", none, none⟩,
           ⟨⟨2024, 5, 7⟩, ⟨9, 45⟩, some "a", some "Deep Work", none, none⟩]
          "Deep Work" = 4 from by decide]
        norm_num⟩⟩

/-! ## Claim theorems: request handling -/

/-- C6: a `date` query parameter that does not parse as an ISO date is
silently replaced by today's date — the `GET /` execution is identical
(same response, same connection events, same table) to the execution with
the parameter set to today's date, and no error is surfaced. -/
theorem index_malformed_date_fallback (db : List Row) (o : Oracle)
    (v : String) (today : Date) (hvalid : today.valid)
    (hbad : parseISODate v = none) :
    index db o (some v) today =
      index db o (some (isoformat today)) today := by
  unfold index
  have h1 : resolveDate (some v) today = today := by
    unfold resolveDate
    simp [hbad]
  have h2 : resolveDate (some (isoformat today)) today = today := by
    unfold resolveDate
    simp [parseISODate_isoformat hvalid]
  rw [h1, h2]

theorem index_malformed_date_fallback_witness :
    Date.valid ⟨2024, 5, 6⟩ ∧ parseISODate "not-a-date" = none ∧
    index [] ⟨true, false, false, false, false⟩ (some "not-a-date")
        ⟨2024, 5, 6⟩ =
      index [] ⟨true, false, false, false, false⟩
        (some (isoformat ⟨2024, 5, 6⟩)) ⟨2024, 5, 6⟩ :=
  ⟨by decide, by decide,
    index_malformed_date_fallback [] ⟨true, false, false, false, false⟩
      "not-a-date" ⟨2024, 5, 6⟩ (by decide) (by decide)⟩

/-- C9: `initialize_database` never lets an exception escape and never
ends the process: on an existing table the creation is a no-op success,
on connection failure it returns leaving the schema untouched, and on a
schema-creation error it logs and returns normally (still closing the
connection). -/
theorem initialize_database_no_raise (st : DbState) (o : InitOracle) :
    (initialize_database st o).2.raised = false ∧
    (o.connOk = false → initialize_database st o = (st, ⟨false, false⟩)) ∧
    (o.connOk = true → o.createFails = true →
      initialize_database st o = (st, ⟨false, true⟩)) ∧
    (o.connOk = true → o.createFails = false →
      initialize_database st o = (⟨true⟩, ⟨false, true⟩)) := by
  unfold initialize_database createTableIfNotExists
  rcases o with ⟨co, cf⟩
  cases co <;> cases cf <;> simp

theorem initialize_database_no_raise_witness :
    (initialize_database ⟨true⟩ ⟨true, false⟩).2.raised = false ∧
    initialize_database ⟨true⟩ ⟨true, false⟩ = (⟨true⟩, ⟨false, true⟩) :=
  ⟨(initialize_database_no_raise ⟨true⟩ ⟨true, false⟩).1,
    (initialize_database_no_raise ⟨true⟩ ⟨true, false⟩).2.2.2 rfl rfl⟩

/-- C10: when any of the six form keys is missing from a
`POST /save_entry` request, the handler fails with a client-error
(`BadRequestKeyError`, HTTP 400) response, acquires no database
connection, and leaves the table unchanged. -/
theorem save_entry_missing_key (form : List (String × String))
    (db : List Row) (o : Oracle) (k : String) (hk : k ∈ requiredKeys)
    (hmiss : formVal form k = none) :
    ∃ k2, save_entry form db o =
      ⟨.resp (.badRequestKey k2), [], db⟩ := by
  cases h1 : formVal form "entry_date" with
  | none => exact ⟨"entry_date", by simp [save_entry, readSaveForm, h1]⟩
  | some v1 =>
  cases h2 : formVal form "time_slot" with
  | none => exact ⟨"time_slot", by simp [save_entry, readSaveForm, h1, h2]⟩
  | some v2 =>
  cases h3 : formVal form "activity" with
  | none =>
    exact ⟨"activity", by simp [save_entry, readSaveForm, h1, h2, h3]⟩
  | some v3 =>
  cases h4 : formVal form "category" with
  | none =>
    exact ⟨"category", by simp [save_entry, readSaveForm, h1, h2, h3, h4]⟩
  | some v4 =>
  cases h5 : formVal form "priority" with
  | none =>
    exact ⟨"priority",
      by simp [save_entry, readSaveForm, h1, h2, h3, h4, h5]⟩
  | some v5 =>
  cases h6 : formVal form "notes" with
  | none =>
    exact ⟨"notes",
      by simp [save_entry, readSaveForm, h1, h2, h3, h4, h5, h6]⟩
  | some v6 =>
    exfalso
    fin_cases hk <;> simp_all

theorem save_entry_missing_key_witness :
    "activity" ∈ requiredKeys ∧
    formVal [("entry_date", "2024-05-06"), ("time_slot", "09:15")]
      "activity" = none ∧
    ∃ k2, save_entry [("entry_date", "2024-05-06"), ("time_slot", "09:15")]
        [] ⟨true, false, false, false, false⟩ =
      ⟨.resp (.badRequestKey k2), [], []⟩ :=
  ⟨by decide, by decide,
    save_entry_missing_key [("entry_date", "2024-05-06"),
      ("time_slot", "09:15")] [] ⟨true, false, false, false, false⟩
      "activity" (by decide) (by decide)⟩

/-- C7 counterexample: with the first query raising, the `GET /` handler
acquires the connection and propagates the exception without ever
releasing the connection — there is an exit path (a store operation
raising) on which the connection acquired by the handler is not released
before control leaves the handler. -/
theorem index_leaks_connection_on_query_error :
    (index [] ⟨true, true, false, false, false⟩ none ⟨2024, 5, 6⟩).events =
      [Ev.acquire] ∧
    Ev.release ∉
      (index [] ⟨true, true, false, false, false⟩ none
        ⟨2024, 5, 6⟩).events ∧
    (index [] ⟨true, true, false, false, false⟩ none
        ⟨2024, 5, 6⟩).response = .raised .opFailed := by
  refine ⟨by decide, by decide, by decide⟩

/-- C7 amended: on every exit path on which no store operation raises —
normal completion, connection-acquisition failure (no connection to
release), and the missing-form-key path of `save_entry` (no connection
yet acquired) — every acquired connection is released before control
leaves the handler; when a query, upsert, or commit raises, the handler
propagates the exception without releasing the connection. -/
theorem connection_release_no_store_error (db : List Row) (o : Oracle)
    (param : Option String) (today : Date)
    (form : List (String × String)) (ed ts a c p n : String)
    (dd : Date) (ss : Slot)
    (hsel : o.selectFails = false) (hagg : o.aggFails = false)
    (hups : o.upsertFails = false) (hcom : o.commitFails = false)
    (hform : readSaveForm form = .ok (ed, ts, a, c, p, n))
    (hed : parseISODate ed = some dd) (hts : parseSlot ts = some ss) :
    ((index db o param today).events = [] ∨
      (index db o param today).events = [Ev.acquire, Ev.release]) ∧
    ((save_entry form db o).events = [] ∨
      (save_entry form db o).events = [Ev.acquire, Ev.release]) := by
  constructor
  · unfold index
    cases hco : o.connOk <;> simp [hsel, hagg]
  · unfold save_entry
    rw [hform]
    cases hco : o.connOk <;> simp [hed, hts, hups, hcom]

theorem connection_release_no_store_error_witness :
    readSaveForm [("entry_date", "2024-05-06"), ("time_slot", "09:15"),
        ("activity", "a"), ("category", "c"), ("priority", "p"),
        ("notes", "n")] =
      .ok ("2024-05-06", "09:15", "a", "c", "p", "n") ∧
    parseISODate "2024-05-06" = some ⟨2024, 5, 6⟩ ∧
    parseSlot "09:15" = some ⟨9, 15⟩ ∧
    (((index [] ⟨true, false, false, false, false⟩ none
        ⟨2024, 5, 6⟩).events = [] ∨
      (index [] ⟨true, false, false, false, false⟩ none
        ⟨2024, 5, 6⟩).events = [Ev.acquire, Ev.release]) ∧
    ((save_entry [("entry_date", "2024-05-06"), ("time_slot", "09:15"),
        ("activity", "a"), ("category", "c"), ("priority", "p"),
        ("notes", "n")] [] ⟨true, false, false, false, false⟩).events =
        [] ∨
      (save_entry [("entry_date", "2024-05-06"), ("time_slot", "09:15"),
        ("activity", "a"), ("category", "c"), ("priority", "p"),
        ("notes", "n")] [] ⟨true, false, false, false, false⟩).events =
        [Ev.acquire, Ev.release])) :=
  ⟨rfl, by decide, by decide,
    connection_release_no_store_error [] ⟨true, false, false, false, false⟩
      none ⟨2024, 5, 6⟩ _ "2024-05-06" "09:15" "a" "c" "p" "n" ⟨2024, 5, 6⟩
      ⟨9, 15⟩ rfl rfl rfl rfl rfl (by decide) (by decide)⟩

/-! ## View rendering and escaping

`index` renders `HTML_TEMPLATE` with `render_template_string`, whose
Jinja environment autoescapes every `\x7b\x7b ... \x7d\x7d` interpolation
(markupsafe `escape`).  We model the per-slot fragment of the template
(app.py lines 213-256) compiled to string concatenation, with every
interpolation routed through `htmlEscape`. -/

/-- The markupsafe `escape` of one character. -/
def escapeChar (c : Char) : List Char :=
  if c = '&' then ['&', 'a', 'm', 'p', ';']
  else if c = '<' then ['&', 'l', 't', ';']
  else if c = '>' then ['&', 'g', 't', ';']
  else if c = '\x22' then ['&', '#', '3', '4', ';']
  else if c = '\x27' then ['&', '#', '3', '9', ';']
  else [c]

/-- The markupsafe `escape`: the autoescaping applied by Jinja to every
interpolated value. -/
def htmlEscape (s : String) : String := ⟨s.data.flatMap escapeChar⟩

/-- Jinja `x or y` on a column value: NULL and the empty string are falsy
and fall back to the placeholder. -/
def jinjaOr (v : Option String) (dflt : String) : String :=
  match v with
  | none => dflt
  | some s => if s = "" then dflt else s

/-- Jinja string conversion of a column value (`str(None) = "None"`;
the application never stores NULL, so the `none` case is not reachable
from application-written rows). -/
def jinjaStr (v : Option String) : String :=
  match v with
  | none => "None"
  | some s => s

/-- The interpolation `\x7b\x7b entry.f if entry else '' \x7d\x7d`. -/
def valueIf (entry : Option EntryView) (f : EntryView → Option String) :
    String :=
  match entry with
  | none => ""
  | some e => jinjaStr (f e)

/-- One iteration of the `for slot in time_slots` loop of `HTML_TEMPLATE`
(app.py lines 213-256), with `entry = entries.get(slot)`:
the collapsed summary (activity/category or placeholders, or the empty-slot
line) and the edit form pre-filled from the entry, every interpolation
autoescaped. -/
def renderSlot (date_str slot : String) (entry : Option EntryView) :
    String :=
  "<div class=\"bg-gray-900/50 p-4 rounded-lg\" x-data=\"\x7b open: false \x7d\">" ++
  "<div class=\"flex items-center cursor-pointer\" @click=\"open = !open\">" ++
  "<span class=\"font-mono text-lg text-cyan-400 w-20\">" ++
  htmlEscape slot ++ "</span><div class=\"flex-grow ml-4\">" ++
  (match entry with
   | some e =>
     "<p class=\"font-semibold text-white\">" ++
     htmlEscape (jinjaOr e.activity "No activity logged") ++ "</p>" ++
     "<p class=\"text-sm text-gray-400\">" ++
     htmlEscape (jinjaOr e.category "Uncategorized") ++ "</p>"
   | none => "<p class=\"text-gray-500\">Empty slot...</p>") ++
  "</div>" ++
  "<button class=\"ml-4 text-gray-400 hover:text-white transition-transform\" :class=\"\x7b\x27rotate-180\x27: open\x7d\">" ++
  "<svg xmlns=\"http://www.w3.org/2000/svg\" class=\"h-6 w-6\" fill=\"none\" viewBox=\"0 0 24 24\" stroke=\"currentColor\"><path stroke-linecap=\"round\" stroke-linejoin=\"round\" stroke-width=\"2\" d=\"M19 9l-7 7-7-7\" /></svg>" ++
  "</button></div>" ++
  "<div x-show=\"open\" x-transition class=\"mt-4 pt-4 border-t border-gray-700\">" ++
  "<form action=\"/save_entry\" method=\"post\" class=\"space-y-4\">" ++
  "<input type=\"hidden\" name=\"entry_date\" value=\"" ++
  htmlEscape date_str ++ "\">" ++
  "<input type=\"hidden\" name=\"time_slot\" value=\"" ++
  htmlEscape slot ++ "\">" ++
  "<div><label class=\"block text-sm font-medium text-gray-300\">Activity</label>" ++
  "<input type=\"text\" name=\"activity\" value=\"" ++
  htmlEscape (valueIf entry EntryView.activity) ++
  "\" placeholder=\"e.g., Wrote project proposal\" class=\"mt-1 block w-full bg-gray-700 border-gray-600 rounded-md shadow-sm focus:ring-cyan-500 focus:border-cyan-500 text-white\"></div>" ++
  "<div><label class=\"block text-sm font-medium text-gray-300\">Category</label>" ++
  "<input type=\"text\" name=\"category\" value=\"" ++
  htmlEscape (valueIf entry EntryView.category) ++
  "\" placeholder=\"e.g., Deep Work, Admin, Leisure\" class=\"mt-1 block w-full bg-gray-700 border-gray-600 rounded-md shadow-sm focus:ring-cyan-500 focus:border-cyan-500 text-white\"></div>" ++
  "<div><label class=\"block text-sm font-medium text-gray-300\">Intended Priority</label>" ++
  "<input type=\"text\" name=\"priority\" value=\"" ++
  htmlEscape (valueIf entry EntryView.priority) ++
  "\" placeholder=\"e.g., Finish Q3 report\" class=\"mt-1 block w-full bg-gray-700 border-gray-600 rounded-md shadow-sm focus:ring-cyan-500 focus:border-cyan-500 text-white\"></div>" ++
  "<div><label class=\"block text-sm font-medium text-gray-300\">Mental Focus / Notes</label>" ++
  "<textarea name=\"notes\" rows=\"2\" placeholder=\"e.g., Felt focused but distracted by emails\" class=\"mt-1 block w-full bg-gray-700 border-gray-600 rounded-md shadow-sm focus:ring-cyan-500 focus:border-cyan-500 text-white\">" ++
  htmlEscape (valueIf entry EntryView.notes) ++ "</textarea></div>" ++
  "<div class=\"text-right\"><button type=\"submit\" class=\"inline-flex justify-center py-2 px-4 border border-transparent shadow-sm text-sm font-medium rounded-md text-white bg-cyan-600 hover:bg-cyan-700 focus:outline-none focus:ring-2 focus:ring-offset-2 focus:ring-cyan-500 focus:ring-offset-gray-800\">Save Entry</button></div>" ++
  "</form></div></div>"

/-- Sequential concatenation of the loop iterations. -/
def concatAll : List String → String
  | [] => ""
  | s :: rest => s ++ concatAll rest

/-- The daily-log portion of the rendered day view: the
`for slot in time_slots` loop over all 96 generated slots, looking each
slot up in the per-day entries dictionary. -/
def renderDay (date_str : String) (entries : List (String × EntryView)) :
    String :=
  concatAll (timeSlots.map
    (fun slot => renderSlot date_str slot (dictGet entries slot)))

/-- An entry whose four fields hold harmless empty strings. -/
def blankEntry : EntryView := ⟨some "", some "", some "", some ""⟩

/-- The same dictionary with every stored value blanked out. -/
def blankValues (entries : List (String × EntryView)) :
    List (String × EntryView) :=
  entries.map (fun kv => (kv.1, blankEntry))

/-! ## Claim theorems: escaping -/

theorem escapeChar_no_markup (c : Char) :
    '<' ∉ escapeChar c ∧ '>' ∉ escapeChar c := by
  unfold escapeChar
  split_ifs with h1 h2 h3 h4 h5
  · exact ⟨by decide, by decide⟩
  · exact ⟨by decide, by decide⟩
  · exact ⟨by decide, by decide⟩
  · exact ⟨by decide, by decide⟩
  · exact ⟨by decide, by decide⟩
  · constructor
    · intro hm
      rw [List.mem_singleton] at hm
      exact h2 hm.symm
    · intro hm
      rw [List.mem_singleton] at hm
      exact h3 hm.symm

theorem htmlEscape_no_markup (s : String) :
    '<' ∉ (htmlEscape s).data ∧ '>' ∉ (htmlEscape s).data := by
  constructor
  · intro hm
    rw [htmlEscape] at hm
    rw [show (String.mk (s.data.flatMap escapeChar)).data =
      s.data.flatMap escapeChar from rfl, List.mem_flatMap] at hm
    obtain ⟨c, _, hc⟩ := hm
    exact (escapeChar_no_markup c).1 hc
  · intro hm
    rw [htmlEscape] at hm
    rw [show (String.mk (s.data.flatMap escapeChar)).data =
      s.data.flatMap escapeChar from rfl, List.mem_flatMap] at hm
    obtain ⟨c, _, hc⟩ := hm
    exact (escapeChar_no_markup c).2 hc

set_option maxRecDepth 8000 in
theorem renderSlot_count_blank (ch : Char) (hch : ch = '<' ∨ ch = '>')
    (ds sl : String) (oe : Option EntryView) :
    (renderSlot ds sl oe).data.count ch =
      (renderSlot ds sl (oe.map (fun _ => blankEntry))).data.count ch := by
  have hzero : ∀ s : String, (htmlEscape s).data.count ch = 0 := by
    intro s
    rcases hch with h | h <;> subst h
    · exact List.count_eq_zero.mpr (htmlEscape_no_markup s).1
    · exact List.count_eq_zero.mpr (htmlEscape_no_markup s).2
  cases oe with
  | none => rfl
  | some e =>
    simp only [renderSlot, Option.map_some', String.data_append,
      List.count_append, hzero]

theorem dictGet_blankValues (entries : List (String × EntryView))
    (k : String) :
    dictGet (blankValues entries) k =
      (dictGet entries k).map (fun _ => blankEntry) := by
  induction entries with
  | nil => rfl
  | cons kv rest ih =>
    show dictGet ((kv.1, blankEntry) :: blankValues rest) k = _
    rw [dictGet, ih]
    cases h : dictGet rest k with
    | some v => simp [dictGet, h]
    | none =>
      by_cases hk : kv.1 = k <;> simp [dictGet, h, hk]

theorem concatAll_count (ch : Char) (f g : String → String)
    (l : List String)
    (h : ∀ x ∈ l, (f x).data.count ch = (g x).data.count ch) :
    (concatAll (l.map f)).data.count ch =
      (concatAll (l.map g)).data.count ch := by
  induction l with
  | nil => rfl
  | cons x rest ih =>
    simp only [List.map_cons, concatAll, String.data_append,
      List.count_append]
    rw [h x (List.mem_cons_self x rest),
      ih (fun y hy => h y (List.mem_cons_of_mem x hy))]

/-- C8: user-supplied field values reach the rendered day view only
through the autoescaping interpolation: the escape of any string contains
no markup delimiter (`<` or `>` — every metacharacter is rewritten to its
entity form), and consequently the number of markup delimiters in the
rendered day view is exactly the number contributed by the template
itself, independent of the stored values — stored text can never appear
as unescaped markup. -/
theorem renderDay_escapes_user_text (date_str : String)
    (entries : List (String × EntryView)) :
    (∀ s : String, '<' ∉ (htmlEscape s).data ∧ '>' ∉ (htmlEscape s).data) ∧
    (renderDay date_str entries).data.count '<' =
      (renderDay date_str (blankValues entries)).data.count '<' ∧
    (renderDay date_str entries).data.count '>' =
      (renderDay date_str (blankValues entries)).data.count '>' := by
  refine ⟨htmlEscape_no_markup, ?_, ?_⟩
  · unfold renderDay
    refine concatAll_count '<' _ _ timeSlots ?_
    intro sl _
    rw [dictGet_blankValues]
    exact renderSlot_count_blank '<' (Or.inl rfl) date_str sl _
  · unfold renderDay
    refine concatAll_count '>' _ _ timeSlots ?_
    intro sl _
    rw [dictGet_blankValues]
    exact renderSlot_count_blank '>' (Or.inr rfl) date_str sl _

theorem renderDay_escapes_user_text_witness :
    (∀ s : String, '<' ∉ (htmlEscape s).data ∧ '>' ∉ (htmlEscape s).data) ∧
    (renderDay "2024-05-06"
        [("09:15", ⟨some "<script>alert(1)</script>", some "a&b",
          some "\x22x\x22", some "y<z"⟩)]).data.count '<' =
      (renderDay "2024-05-06" (blankValues
        [("09:15", ⟨some "<script>alert(1)</script>", some "a&b",
          some "\x22x\x22", some "y<z"⟩)])).data.count '<' ∧
    (renderDay "2024-05-06"
        [("09:15", ⟨some "<script>alert(1)</script>", some "a&b",
          some "\x22x\x22", some "y<z"⟩)]).data.count '>' =
      (renderDay "2024-05-06" (blankValues
        [("09:15", ⟨some "<script>alert(1)</script>", some "a&b",
          some "\x22x\x22", some "y<z"⟩)])).data.count '>' :=
  renderDay_escapes_user_text "2024-05-06"
    [("09:15", ⟨some "<script>alert(1)</script>", some "a&b",
      some "\x22x\x22", some "y<z"⟩)]

end TimeTracker
